import Mathlib

/-!
Verification of the focus/settled/onerror helpers of an Ember test-helper
library. The definitions below are a shallow embedding of

  * `src/addon-test-support/@ember/test-helpers/dom/focus.ts`
    (`__focus__` and the public `focus` pipeline),
  * `src/addon-test-support/@ember/test-helpers/setup-onerror.ts`
    (`setupOnerror`, `resetOnerror`, `_prepareOnerror`),
  * the settledness evaluator (`isSettled` / `settled`), whose code is not in
    the sources and is modelled from the specification.

DOM state is explicit (`DomState`), effectful calls return the new state plus
the ordered list of events fired, and promise chains are modelled with
`Except` for resolution/rejection plus an ordered trace of pipeline steps.
-/

namespace EmberHelpers

/-- A DOM element, identified abstractly by `id`. `focusable` carries the
verdict of the `isFocusable` capability predicate for this element
(`the -is-focusable module` is not among the source files; the spec treats
focusability as "an explicit allow-list of tag/attribute conditions", i.e. a
fixed property of the element). -/
structure Elem where
  id : Nat
  focusable : Bool
  deriving DecidableEq, Repr

/-- Modelled from the spec: `isFocusable` (the -is-focusable module) is not among the
source files; the spec describes it as the capability predicate "focusable"
on elements, carried here as the element's `focusable` field. -/
def isFocusable (e : Elem) : Bool := e.focusable

/-- The ambient DOM document state read and mutated by `__focus__`:
`document.activeElement`, whether `document.hasFocus` exists as a function,
and the value `document.hasFocus()` would return. -/
structure DomState where
  activeElement : Option Elem
  hasFocusSupported : Bool
  hasFocus : Bool
  deriving DecidableEq, Repr

/-- An event fired on an element during a focus simulation: a (synthetic)
`blur` with a related target, the native `focus` event fired by
`element.focus()` when the browser is focused, the synthetic non-bubbling
`focus` fired by `fireEvent`, and `focusin`. -/
inductive DomEvent where
  | blurEv (target : Elem) (relatedTarget : Option Elem)
  | focusNative (target : Elem)
  | focusSynthetic (target : Elem)
  | focusin (target : Elem)
  deriving DecidableEq, Repr

/-- Modelled from the spec: `__blur__` (dom/blur.ts) is not among the source
files. Per the spec (section 4.4, focus/blur compensation) the focus
simulator "synthesizes a `blur`" on the previously focused element with the
given related target; it fires one `blur` event carrying that relatedTarget
and leaves the rest of the DOM state unchanged. -/
def __blur__ (s : DomState) (element : Elem) (relatedTarget : Option Elem) :
    DomState × List DomEvent :=
  (s, [DomEvent.blurEv element relatedTarget])

/-- The native `element.focus()` call: makes `document.activeElement` be the
element and, if the browser is focused, also fires a (native) focus event —
per the comment in `__focus__`, when the browser is not focused it fires no
event. -/
def nativeFocus (s : DomState) (element : Elem) : DomState × List DomEvent :=
  ({ s with activeElement := some element },
   if s.hasFocus then [DomEvent.focusNative element] else [])

/-- Function `__focus__` from dom/focus.ts: computes the previously focused element
(the active element when it differs from the target and is focusable), fires
a compensating blur with null relatedTarget and returns when the target is
not focusable; otherwise, when the browser is not focused, fires a
compensating blur with the target as relatedTarget, calls `element.focus()`,
and when the browser is not focused also fires synthetic `focus` and
`focusin` events. -/
def __focus__ (s : DomState) (element : Elem) : DomState × List DomEvent :=
  let previousFocusedElement : Option Elem :=
    match s.activeElement with
    | some active =>
        if active != element && isFocusable active then some active else none
    | none => none
  if !(isFocusable element) then
    match previousFocusedElement with
    | some prev => __blur__ s prev none
    | none => (s, [])
  else
    let browserIsNotFocused := s.hasFocusSupported && !(s.hasFocus)
    let afterBlur : DomState × List DomEvent :=
      match previousFocusedElement with
      | some prev =>
          if browserIsNotFocused then __blur__ s prev (some element)
          else (s, [])
      | none => (s, [])
    let afterFocus := nativeFocus afterBlur.1 element
    let extra : List DomEvent :=
      if browserIsNotFocused then
        [DomEvent.focusSynthetic element, DomEvent.focusin element]
      else []
    (afterFocus.1, afterBlur.2 ++ afterFocus.2 ++ extra)

/-- The argument of the public `focus` helper: `null`, `undefined`, a selector
string, or a direct element reference. -/
inductive Target where
  | nullT
  | undefinedT
  | selector (sel : String)
  | element (e : Elem)
  deriving DecidableEq, Repr

/-- JavaScript truthiness of a target, as tested by `if (!target)`: `null` and
`undefined` are falsy, so is the empty selector string; an element (an
object) is always truthy. -/
def Target.isTruthy : Target → Bool
  | .nullT => false
  | .undefinedT => false
  | .selector sel => sel != ""
  | .element _ => true

/-- Modelled from the spec: `getElement` (the -get-element module) is not among the
source files. The spec (section 6) requires "element lookup by
selector/reference": a selector is looked up in the document (`doc`), a
direct element reference resolves to itself. -/
def getElement (doc : String → Option Elem) : Target → Option Elem
  | .nullT => none
  | .undefinedT => none
  | .selector sel => doc sel
  | .element e => some e

/-- JavaScript template-literal interpolation of a target, as it appears in
the not-found error message. -/
def Target.interp : Target → String
  | .nullT => "null"
  | .undefinedT => "undefined"
  | .selector sel => sel
  | .element e => "[object Element " ++ toString e.id ++ "]"

/-- JavaScript template-literal interpolation of an element, as it appears in
the not-focusable error message. -/
def Elem.interp (e : Elem) : String :=
  "[object Element " ++ toString e.id ++ "]"

/-- One observable step of the `focus` pipeline: running the hooks registered
for a (label, phase) pair, firing a DOM event, or awaiting `settled()`. -/
inductive Step where
  | hooks (label : String) (phase : String)
  | dom (ev : DomEvent)
  | settledBarrier
  deriving DecidableEq, Repr

/-- The settlement of the promise a helper returns: the ordered trace of
pipeline steps that ran, the final DOM state, and whether the promise
resolved (`Except.ok`) or rejected with an `Error` carrying the given
message (`Except.error`). -/
structure PromiseResult where
  trace : List Step
  dom : DomState
  outcome : Except String Unit
  deriving Repr

/-- The promise chain built by `focus` (dom/focus.ts):
`Promise.resolve().then(start hooks).then(validate + mutate + settled).then(end hooks)`.
A `throw` inside a then-callback rejects the chain, skipping the later
then-callbacks. -/
def focusChain (doc : String → Option Elem) (s : DomState) (target : Target) :
    PromiseResult :=
  let start := Step.hooks "focus" "start"
  if !(target.isTruthy) then
    { trace := [start], dom := s,
      outcome := Except.error "Must pass an element or selector to `focus`." }
  else
    match getElement doc target with
    | none =>
        { trace := [start], dom := s,
          outcome := Except.error
            ("Element not found when calling `focus('" ++ target.interp ++ "')`.") }
    | some element =>
        if !(isFocusable element) then
          { trace := [start], dom := s,
            outcome := Except.error (element.interp ++ " is not focusable") }
        else
          let res := __focus__ s element
          { trace := start ::
              (res.2.map Step.dom ++ [Step.settledBarrier, Step.hooks "focus" "end"]),
            dom := res.1,
            outcome := Except.ok () }

/-- The observable result of calling a JavaScript function expected to return
a promise: either a synchronous throw that escapes the call itself, or a
returned promise (whose own settlement lives in the carried value). -/
inductive JsCall (α : Type) where
  | thrown (msg : String)
  | returned (p : α)
  deriving DecidableEq, Repr

/-- The public `focus` helper (dom/focus.ts): its body is exactly
`return Promise.resolve().then(...)`; every check and mutation happens inside
then-callbacks, so the call always returns a promise and never throws
synchronously. -/
def focus (doc : String → Option Elem) (s : DomState) (target : Target) :
    JsCall PromiseResult :=
  JsCall.returned (focusChain doc s target)

/-- A JavaScript function value used as an error handler, identified
abstractly. `Ember.onerror` and the cached values may also be `undefined`,
hence `Option Handler` wherever a handler slot appears. -/
abbrev Handler := Nat

/-- A test-context object (`BaseContext`), identified abstractly: the cache is
keyed by context identity. -/
abbrev Ctx := Nat

/-- The contents of the module-level `cachedOnerror` `Map`, as a function
from context identity to the entry stored for it: `none` models an absent
key, `some v` a present entry whose stored value is `v` (a handler or
`undefined`). -/
abbrev OnerrorCache := Ctx → Option (Option Handler)

/-- The ambient state read and mutated by setup-onerror.ts: the global
`Ember.onerror` slot, the module-level `cachedOnerror` map from contexts to
cached handler values, and what `getContext()` currently returns. -/
structure OnerrorState where
  emberOnerror : Option Handler
  cachedOnerror : OnerrorCache
  currentContext : Option Ctx

/-- Operation `Map.prototype.has` on the `cachedOnerror` map. -/
def mapHas (m : OnerrorCache) (c : Ctx) : Bool :=
  (m c).isSome

/-- Operation `Map.prototype.get` on the `cachedOnerror` map: the stored value, or
`undefined` (`none`) when the key is absent. -/
def mapGet (m : OnerrorCache) (c : Ctx) : Option Handler :=
  (m c).getD none

/-- Operation `Map.prototype.set` on the `cachedOnerror` map: store `v` under key `c`,
leaving every other key's entry untouched. -/
def mapSet (m : OnerrorCache) (c : Ctx) (v : Option Handler) : OnerrorCache :=
  fun x => if x = c then some v else m x

/-- Function `setupOnerror` (setup-onerror.ts): requires an active test context and a
cached original handler for it; then sets `Ember.onerror` to the given
function, or — when called without a function — back to the value cached for
the current context. Throws (models `throw new Error`) otherwise, leaving the
state unmutated. -/
def setupOnerror (s : OnerrorState) (onError : Option Handler) :
    Except String OnerrorState :=
  match s.currentContext with
  | none => Except.error "Must setup test context before calling setupOnerror"
  | some context =>
    if !(mapHas s.cachedOnerror context) then
      Except.error "_cacheOriginalOnerror must be called before setupOnerror. Normally, this will happen as part of your test harness."
    else
      let onError2 : Option Handler :=
        match onError with
        | some f => some f
        | none => mapGet s.cachedOnerror context
      Except.ok { s with emberOnerror := onError2 }

/-- Function `resetOnerror` (setup-onerror.ts) is `setupOnerror` itself, called without
an `onError` argument. -/
def resetOnerror (s : OnerrorState) : Except String OnerrorState :=
  setupOnerror s none

/-- Function `_prepareOnerror` (setup-onerror.ts): caches the current `Ember.onerror`
for the given context, throwing when the context already has a cache
entry. -/
def _prepareOnerror (s : OnerrorState) (context : Ctx) :
    Except String OnerrorState :=
  if mapHas s.cachedOnerror context then
    Except.error "_prepareOnerror should only be called once per-context"
  else
    Except.ok
      { s with cachedOnerror := mapSet s.cachedOnerror context s.emberOnerror }

/-- The pending-operation tracker's state for one application instance: named
non-negative counters plus the verdict of any registered external
"has pending requests" predicate (spec sections 3 and 4.1). -/
structure TrackerState where
  counters : List (String × Nat)
  externalPending : Bool
  deriving DecidableEq, Repr

/-- Whether any tracked work is outstanding: some counter is positive, or the
external pending-requests predicate reports work. -/
def hasPending (t : TrackerState) : Bool :=
  t.counters.any (fun c => 0 < c.2) || t.externalPending

/-- Modelled from the spec: `isSettled` (settled.ts) is not among the source
files. Per spec section 4.2 it is "computed synchronously from the tracker's
hasPending() and any registered pending-requests predicate". -/
def isSettled (t : TrackerState) : Bool := !(hasPending t)

/-- Modelled from the spec: `settled` (settled.ts) is not among the source
files. Per spec section 4.2 the returned promise, when already settled,
"resolves on the next microtask", and otherwise observes transitions and
resolves "the first time isSettled() becomes true". `states` is the
cooperative interleaving of tracker states, one per microtask; starting from
microtask `i`, the promise resolves at the first microtask at which
`isSettled` holds, searching up to `fuel` microtasks (`none` models the
intentional hang of an application that never settles). A call made at
microtask `start` begins the search at `start + 1`. -/
def settledResolveIndex (states : Nat → TrackerState) : Nat → Nat → Option Nat
  | _, 0 => none
  | i, fuel + 1 =>
    if isSettled (states i) then some i
    else settledResolveIndex states (i + 1) fuel

/-! Sample elements, documents and states used by the concrete witnesses. -/

/-- A focusable sample element. -/
def elemA : Elem := { id := 1, focusable := true }

/-- Another focusable sample element. -/
def elemB : Elem := { id := 2, focusable := true }

/-- A non-focusable sample element. -/
def elemC : Elem := { id := 3, focusable := false }

/-- A DOM state in which the focusable `elemA` is active and the host window
does not have focus. -/
def unfocusedDom : DomState :=
  { activeElement := some elemA, hasFocusSupported := true, hasFocus := false }

/-- A document in which no selector resolves. -/
def emptyDoc : String → Option Elem := fun _ => none

/-- A document in which the selector "input" resolves to the non-focusable
`elemC`. -/
def docWithNonFocusable : String → Option Elem :=
  fun sel => if sel = "input" then some elemC else none

/-- A sample tracker evolution: one pending timer at microtasks 0 and 1,
settled from microtask 2 on. -/
def sampleStates (n : Nat) : TrackerState :=
  { counters := [("timers", if n < 2 then 1 else 0)], externalPending := false }

/-! The claim theorems. -/

/-- Any resolution found by the settledness search lands on a settled state,
no earlier than where the search began. -/
theorem settledResolveIndex_sound (states : Nat → TrackerState) :
    ∀ fuel j i, settledResolveIndex states j fuel = some i →
      isSettled (states i) = true ∧ j ≤ i := by
  intro fuel
  induction fuel with
  | zero =>
    intro j i h
    exact absurd h (by simp [settledResolveIndex])
  | succ n ih =>
    intro j i h
    rw [settledResolveIndex] at h
    split at h
    · cases h
      exact ⟨by assumption, Nat.le_refl _⟩
    · obtain ⟨h1, h2⟩ := ih (j + 1) i h
      exact ⟨h1, Nat.le_trans (Nat.le_succ j) h2⟩

/-- C1: `settled()` resolves only at an instant where `isSettled()` is true:
whenever a `settled()` call made at microtask `start` resolves at microtask
`i`, the tracker state at `i` satisfies `isSettled`, and `i` is strictly
after the call — so a caller that has just awaited `settled()` (directly or
through `render` or `focus`) observes `isSettled() = true`, with no
flicker. -/
theorem settled_resolves_only_when_isSettled (states : Nat → TrackerState)
    (start fuel i : Nat)
    (h : settledResolveIndex states (start + 1) fuel = some i) :
    isSettled (states i) = true ∧ start < i := by
  obtain ⟨h1, h2⟩ := settledResolveIndex_sound states fuel (start + 1) i h
  exact ⟨h1, Nat.lt_of_succ_le h2⟩

/-- C1 witness: on the sample evolution, a `settled()` call at microtask 0
resolves at microtask 2, where `isSettled` holds. -/
theorem settled_resolves_only_when_isSettled_witness :
    isSettled (sampleStates 2) = true ∧ 0 < 2 :=
  settled_resolves_only_when_isSettled sampleStates 0 5 2 (by decide)

/-- C4: focusing a `null` or `undefined` target returns a promise rejected
with the missing-target usage error; only the start hooks ran and the DOM is
untouched. -/
theorem focus_missing_target_rejects (doc : String → Option Elem)
    (s : DomState) (target : Target)
    (h : target = Target.nullT ∨ target = Target.undefinedT) :
    focus doc s target = JsCall.returned
      { trace := [Step.hooks "focus" "start"], dom := s,
        outcome := Except.error "Must pass an element or selector to `focus`." } := by
  rcases h with h | h <;> subst h <;> rfl

/-- C4 witness: `focus(null)` on a concrete document and DOM state. -/
theorem focus_missing_target_rejects_witness :
    focus emptyDoc unfocusedDom Target.nullT = JsCall.returned
      { trace := [Step.hooks "focus" "start"], dom := unfocusedDom,
        outcome := Except.error "Must pass an element or selector to `focus`." } :=
  focus_missing_target_rejects emptyDoc unfocusedDom Target.nullT (Or.inl rfl)

/-- C5: focusing a non-empty selector that resolves to no element returns a
promise rejected with the not-found error, whose message names the selector
that was passed. -/
theorem focus_not_found_rejects (doc : String → Option Elem) (s : DomState)
    (sel : String) (hsel : sel ≠ "") (hdoc : doc sel = none) :
    focus doc s (Target.selector sel) = JsCall.returned
      { trace := [Step.hooks "focus" "start"], dom := s,
        outcome := Except.error
          ("Element not found when calling `focus('" ++ sel ++ "')`.") } := by
  simp [focus, focusChain, Target.isTruthy, getElement, hdoc, Target.interp,
    bne_iff_ne, hsel]

/-- C5 witness: `focus('#missing')` on the empty document. -/
theorem focus_not_found_rejects_witness :
    focus emptyDoc unfocusedDom (Target.selector "#missing") = JsCall.returned
      { trace := [Step.hooks "focus" "start"], dom := unfocusedDom,
        outcome := Except.error
          "Element not found when calling `focus('#missing')`." } :=
  focus_not_found_rejects emptyDoc unfocusedDom "#missing" (by decide) rfl

/-- C6: focusing a target that resolves to a non-focusable element returns a
promise rejected with the unsupported-target error stating the element is
not focusable; the DOM state is unchanged (no focus mutation was performed)
and no DOM event appears in the trace. -/
theorem focus_not_focusable_rejects (doc : String → Option Elem)
    (s : DomState) (target : Target) (e : Elem)
    (ht : target.isTruthy = true) (hget : getElement doc target = some e)
    (hnf : isFocusable e = false) :
    focus doc s target = JsCall.returned
      { trace := [Step.hooks "focus" "start"], dom := s,
        outcome := Except.error (e.interp ++ " is not focusable") } := by
  simp [focus, focusChain, ht, hget, hnf]

/-- C6 witness: `focus('input')` where "input" resolves to the non-focusable
`elemC`. -/
theorem focus_not_focusable_rejects_witness :
    focus docWithNonFocusable unfocusedDom (Target.selector "input") =
      JsCall.returned
        { trace := [Step.hooks "focus" "start"], dom := unfocusedDom,
          outcome := Except.error
            "[object Element 3] is not focusable" } :=
  focus_not_focusable_rejects docWithNonFocusable unfocusedDom
    (Target.selector "input") elemC (by decide) (by decide) rfl

/-- Evaluating `focusChain` on a falsy target: only the start hooks ran, the promise
rejects with the missing-target message. -/
theorem focusChain_falsy (doc : String → Option Elem) (s : DomState)
    (target : Target) (ht : target.isTruthy = false) :
    focusChain doc s target =
      { trace := [Step.hooks "focus" "start"], dom := s,
        outcome := Except.error "Must pass an element or selector to `focus`." } := by
  simp [focusChain, ht]

/-- Evaluating `focusChain` on a truthy target that resolves to no element: only the
start hooks ran, the promise rejects with the not-found message. -/
theorem focusChain_notFound (doc : String → Option Elem) (s : DomState)
    (target : Target) (ht : target.isTruthy = true)
    (hget : getElement doc target = none) :
    focusChain doc s target =
      { trace := [Step.hooks "focus" "start"], dom := s,
        outcome := Except.error
          ("Element not found when calling `focus('" ++ target.interp ++ "')`.") } := by
  simp [focusChain, ht, hget]

/-- Evaluating `focusChain` on a target resolving to a non-focusable element: only the
start hooks ran, the promise rejects with the not-focusable message. -/
theorem focusChain_notFocusable (doc : String → Option Elem) (s : DomState)
    (target : Target) (e : Elem) (ht : target.isTruthy = true)
    (hget : getElement doc target = some e) (hnf : isFocusable e = false) :
    focusChain doc s target =
      { trace := [Step.hooks "focus" "start"], dom := s,
        outcome := Except.error (e.interp ++ " is not focusable") } := by
  simp [focusChain, ht, hget, hnf]

/-- Evaluating `focusChain` on a target resolving to a focusable element: the start
hooks, the DOM events of `__focus__`, the settled barrier and the end hooks
ran in this order, and the promise resolves. -/
theorem focusChain_ok (doc : String → Option Elem) (s : DomState)
    (target : Target) (e : Elem) (ht : target.isTruthy = true)
    (hget : getElement doc target = some e) (hf : isFocusable e = true) :
    focusChain doc s target =
      { trace := Step.hooks "focus" "start" ::
          (List.map Step.dom (__focus__ s e).2
            ++ [Step.settledBarrier, Step.hooks "focus" "end"]),
        dom := (__focus__ s e).1,
        outcome := Except.ok () } := by
  simp [focusChain, ht, hget, hf]

/-- C2: when `focus(B)` performs its DOM mutation (`__focus__`) while another
focusable element A is `document.activeElement` and the host window does not
have focus, a synthetic blur is fired on A with relatedTarget B before B
receives focus: the event trace is exactly blur(A, relatedTarget B), then
the synthetic focus and focusin on B, and afterwards B is the active
element. -/
theorem focus_fires_blur_compensation (s : DomState) (a b : Elem)
    (hact : s.activeElement = some a) (hne : a ≠ b)
    (ha : isFocusable a = true) (hb : isFocusable b = true)
    (hsupp : s.hasFocusSupported = true) (hfoc : s.hasFocus = false) :
    (__focus__ s b).2 =
      [DomEvent.blurEv a (some b), DomEvent.focusSynthetic b,
       DomEvent.focusin b]
    ∧ (__focus__ s b).1.activeElement = some b := by
  simp [__focus__, __blur__, nativeFocus, hact, ha, hb, hsupp, hfoc,
    bne_iff_ne, hne]

/-- C2 witness: focusing `elemB` while `elemA` is active in an unfocused
window. -/
theorem focus_fires_blur_compensation_witness :
    (__focus__ unfocusedDom elemB).2 =
      [DomEvent.blurEv elemA (some elemB), DomEvent.focusSynthetic elemB,
       DomEvent.focusin elemB]
    ∧ (__focus__ unfocusedDom elemB).1.activeElement = some elemB :=
  focus_fires_blur_compensation unfocusedDom elemA elemB rfl (by decide)
    rfl rfl rfl rfl

/-- C10: `__focus__` on a non-focusable element performs no focus mutation
(the DOM state is returned unchanged) and fires no focus or focusin event:
when a different focusable element currently holds focus it receives a
synthetic blur with relatedTarget null, and in every other case no event at
all is fired. -/
theorem focus_internal_nonfocusable_target (s : DomState) (e : Elem)
    (hnf : isFocusable e = false) :
    (__focus__ s e).1 = s
    ∧ (∀ a, s.activeElement = some a → a ≠ e → isFocusable a = true →
        (__focus__ s e).2 = [DomEvent.blurEv a none])
    ∧ ((s.activeElement = none ∨
        ∃ a, s.activeElement = some a ∧ (a = e ∨ isFocusable a = false)) →
        (__focus__ s e).2 = []) := by
  refine ⟨?_, ?_, ?_⟩
  · cases hact : s.activeElement with
    | none => simp [__focus__, __blur__, hact, hnf]
    | some a =>
        by_cases hae : a = e
        · simp [__focus__, __blur__, hact, hnf, hae]
        · cases haf : isFocusable a with
          | true => simp [__focus__, __blur__, hact, hnf, bne_iff_ne, hae, haf]
          | false => simp [__focus__, __blur__, hact, hnf, bne_iff_ne, hae, haf]
  · intro a hact hae haf
    simp [__focus__, __blur__, hact, hnf, bne_iff_ne, hae, haf]
  · rintro (hact | ⟨a, hact, hcase⟩)
    · simp [__focus__, hact, hnf]
    · rcases hcase with hae | haf
      · subst hae
        simp [__focus__, hact, hnf]
      · simp [__focus__, hact, hnf, haf]

/-- C10 witness: `__focus__` on the non-focusable `elemC` while the focusable
`elemA` is active: the state is unchanged and only a blur with null
relatedTarget fires. -/
theorem focus_internal_nonfocusable_target_witness :
    (__focus__ unfocusedDom elemC).1 = unfocusedDom
    ∧ (__focus__ unfocusedDom elemC).2 = [DomEvent.blurEv elemA none] := by
  have h := focus_internal_nonfocusable_target unfocusedDom elemC rfl
  exact ⟨h.1, h.2.1 elemA rfl (by decide) rfl⟩

/-- C3: the `focus` pipeline runs in three stages: the start hooks always run
first (also for an invalid or missing target, before the validation error is
raised); when the promise resolves, the trace is the start hooks, then the
DOM events of the focus mutation, then the settled barrier, and the end
hooks last; when the promise rejects, nothing beyond the start hooks ran. -/
theorem focus_pipeline_order (doc : String → Option Elem) (s : DomState)
    (target : Target) :
    (∃ rest,
      (focusChain doc s target).trace = Step.hooks "focus" "start" :: rest)
    ∧ ((focusChain doc s target).outcome = Except.ok () →
        ∃ evs, (focusChain doc s target).trace =
          Step.hooks "focus" "start" ::
            (List.map Step.dom evs
              ++ [Step.settledBarrier, Step.hooks "focus" "end"]))
    ∧ (∀ msg, (focusChain doc s target).outcome = Except.error msg →
        (focusChain doc s target).trace = [Step.hooks "focus" "start"]) := by
  cases ht : target.isTruthy with
  | false =>
      rw [focusChain_falsy doc s target ht]
      exact ⟨⟨[], rfl⟩, fun h => Except.noConfusion h, fun msg _ => rfl⟩
  | true =>
      cases hget : getElement doc target with
      | none =>
          rw [focusChain_notFound doc s target ht hget]
          exact ⟨⟨[], rfl⟩, fun h => Except.noConfusion h, fun msg _ => rfl⟩
      | some e =>
          cases hf : isFocusable e with
          | false =>
              rw [focusChain_notFocusable doc s target e ht hget hf]
              exact ⟨⟨[], rfl⟩, fun h => Except.noConfusion h, fun msg _ => rfl⟩
          | true =>
              rw [focusChain_ok doc s target e ht hget hf]
              exact ⟨⟨_, rfl⟩, fun _ => ⟨(__focus__ s e).2, rfl⟩,
                fun msg h => Except.noConfusion h⟩

/-- C7: `focus` reports every failure through the returned promise and never
throws synchronously: for every document, DOM state and target the call
returns a promise, and for each invalid input — missing (falsy) target,
selector resolving to no element, or non-focusable element — that promise is
rejected. -/
theorem focus_never_throws_sync (doc : String → Option Elem) (s : DomState)
    (target : Target) :
    focus doc s target = JsCall.returned (focusChain doc s target)
    ∧ (target.isTruthy = false →
        ∃ msg, (focusChain doc s target).outcome = Except.error msg)
    ∧ (∀ sel, target = Target.selector sel → target.isTruthy = true →
        doc sel = none →
        ∃ msg, (focusChain doc s target).outcome = Except.error msg)
    ∧ (∀ e, target.isTruthy = true → getElement doc target = some e →
        isFocusable e = false →
        ∃ msg, (focusChain doc s target).outcome = Except.error msg) := by
  refine ⟨rfl, ?_, ?_, ?_⟩
  · intro ht
    exact ⟨_, by rw [focusChain_falsy doc s target ht]⟩
  · intro sel hsel ht hdoc
    subst hsel
    exact ⟨_, by rw [focusChain_notFound doc s (Target.selector sel) ht
      (by simpa [getElement] using hdoc)]⟩
  · intro e ht hget hnf
    exact ⟨_, by rw [focusChain_notFocusable doc s target e ht hget hnf]⟩

/-- C8: calling `setupOnerror` (and hence `resetOnerror`, which is the same
function called without an argument) with no active test context, or before
`_prepareOnerror` cached the original handler for the current context,
throws a usage error; no new state is produced, so the global `Ember.onerror`
slot is not mutated. -/
theorem setupOnerror_usage_errors (s : OnerrorState) (onError : Option Handler)
    (h : s.currentContext = none ∨
      ∃ c, s.currentContext = some c ∧ mapHas s.cachedOnerror c = false) :
    setupOnerror s onError =
        Except.error "Must setup test context before calling setupOnerror"
    ∨ setupOnerror s onError =
        Except.error "_cacheOriginalOnerror must be called before setupOnerror. Normally, this will happen as part of your test harness." := by
  rcases h with h | ⟨c, hc, hm⟩
  · left
    simp [setupOnerror, h]
  · right
    simp [setupOnerror, hc, hm]

/-- A state with no active test context. -/
def noContextState : OnerrorState :=
  { emberOnerror := some 7, cachedOnerror := fun _ => none,
    currentContext := none }

/-- C8 witness: `resetOnerror` (i.e. `setupOnerror` without an argument)
outside a test context throws the usage error. -/
theorem setupOnerror_usage_errors_witness :
    setupOnerror noContextState none =
        Except.error "Must setup test context before calling setupOnerror"
    ∨ setupOnerror noContextState none =
        Except.error "_cacheOriginalOnerror must be called before setupOnerror. Normally, this will happen as part of your test harness." :=
  setupOnerror_usage_errors noContextState none (Or.inl rfl)

/-- C9: the prior global handler is cached per test context, keyed by context
identity. First conjunct: `setupOnerror` without a function argument (i.e.
`resetOnerror`) sets `Ember.onerror` back to exactly the value cached for
the current context, leaving the cache and the context untouched. Second
conjunct: `_prepareOnerror` stores the current `Ember.onerror` under the
given context's key and leaves every other context's cache entry unchanged —
a map keyed by context identity, not a single global slot. -/
theorem onerror_cached_per_context :
    (∀ (s : OnerrorState) (c : Ctx), s.currentContext = some c →
      mapHas s.cachedOnerror c = true →
      resetOnerror s =
        Except.ok { s with emberOnerror := mapGet s.cachedOnerror c })
    ∧ (∀ (s s2 : OnerrorState) (c : Ctx), _prepareOnerror s c = Except.ok s2 →
        s2.cachedOnerror c = some s.emberOnerror ∧
        ∀ c2, c2 ≠ c → s2.cachedOnerror c2 = s.cachedOnerror c2) := by
  constructor
  · intro s c hc hm
    simp [resetOnerror, setupOnerror, hc, hm]
  · intro s s2 c h
    rw [_prepareOnerror] at h
    split at h
    · exact Except.noConfusion h
    · cases h
      refine ⟨by simp [mapSet], fun c2 hne => by simp [mapSet, hne]⟩

end EmberHelpers
